import Mathlib

/-!
Verification of the Iran-sanctions crypto-monitor pipeline

Shallow embedding of the sanctions-data normalization pipeline of the
repository (files `src/sanctions/ofac.py` and `src/monitors/blockchain.py`)
together with proofs of the specification claims.

Conventions of the embedding:
* Python `Decimal` values are modelled as exact rationals (`ℚ`).
* JSON payloads returned by `response.json()` are modelled by the inductive
  `Json`; dictionary access (`d["k"]`, `d.get("k", default)`) is modelled
  with the same failure behaviour as Python (`KeyError`, `AttributeError`,
  `TypeError`).
* Python exceptions are modelled by `Except PyErr`; an HTTP request that
  fails at the transport level is an `Except.error .netError` coming out of
  the environment (`Env`), exactly as `httpx` raises out of `client.get`.
* XML documents are modelled by `SdnDoc`: either malformed (in which case
  `ET.fromstring` raises `ParseError`) or a well-formed element tree.
-/

set_option autoImplicit false

namespace IranMonitorModel

/-- Python exception classes that the embedded code can raise. -/
inductive PyErr where
  /-- `KeyError` from a `d[k]` subscript on a dict missing `k`. -/
  | keyError (k : String)
  /-- `ValueError`, e.g. from `BlockchainType(s)` on an invalid tag `s`. -/
  | valueError (s : String)
  /-- `TypeError` from subscripting / arithmetic on a wrongly-typed value. -/
  | typeError
  /-- `AttributeError`, e.g. `.get` on a non-dict or `.upper()` on `None`. -/
  | attributeError
  /-- `IndexError` from `l[0]` on an empty list. -/
  | indexError
  /-- `xml.etree.ElementTree.ParseError` from `ET.fromstring`. -/
  | parseError
  /-- a transport-level error raised by `httpx` out of `client.get`. -/
  | netError
  /-- `decimal.InvalidOperation` / `ValueError` from `Decimal(s)` / `int(s)`
      on a non-numeric string. -/
  | badNumber
deriving DecidableEq, Repr

/-- JSON values as returned by `response.json()`.  Numbers are integers:
every numeric field the adapters consume is an integer amount, count,
block number or epoch timestamp. -/
inductive Json where
  | null
  | str (s : String)
  | num (n : Int)
  | arr (elems : List Json)
  | obj (fields : List (String × Json))
deriving Repr

/-- Python membership test `needle in hay` on lists of characters:
`true` iff `needle` occurs contiguously inside `hay`. -/
def isPre : List Char → List Char → Bool
  | [], _ => true
  | _ :: _, [] => false
  | a :: n, b :: h => a = b && isPre n h

/-- Predicate `hasSub hay needle = true` iff `needle` is a contiguous sublist of `hay`. -/
def hasSub : List Char → List Char → Bool
  | hay, n =>
    isPre n hay ||
      (match hay with
       | [] => false
       | _ :: t => hasSub t n)

/-- The Python substring test `needle in hay` on strings. -/
def strIn (needle hay : String) : Bool := hasSub hay.data needle.data

/-- Python `sep.join(parts)`. -/
def pyJoin (sep : String) : List String → String
  | [] => ""
  | [x] => x
  | x :: y :: r => x ++ sep ++ pyJoin sep (y :: r)

/-- Python `s.upper()` (ASCII case mapping, as in all strings the code
compares against). -/
def pyUpper (s : String) : String := ⟨s.data.map Char.toUpper⟩

/-- Python `s.lower()` (ASCII case mapping). -/
def pyLower (s : String) : String := ⟨s.data.map Char.toLower⟩

/-! ## XML model (`xml.etree.ElementTree`)

An element has a tag, optional text (`elem.text` is `None` for `<x/>` or
`<x></x>`), and a list of child elements in document order. -/

/-- An XML element as exposed by `xml.etree.ElementTree`. -/
structure XmlElem where
  tag : String
  text : Option String
  children : List XmlElem
deriving Repr

mutual

/-- The proper descendants of one element, in document order. -/
def elemDescendants : XmlElem → List XmlElem
  | ⟨_, _, children⟩ => descendantsList children

/-- All elements strictly below the elements of a list, each element
followed by its own descendants, in document order; this is the element
sequence traversed by `findall(".//tag")` before tag filtering. -/

def descendantsList : List XmlElem → List XmlElem
  | [] => []
  | c :: cs => c :: (elemDescendants c ++ descendantsList cs)

end

/-- Model of `elem.findall(".//tag", ns)`: every proper descendant with the given
tag, in document order. -/
def findallDesc (e : XmlElem) (tag : String) : List XmlElem :=
  (descendantsList e.children).filter (fun c => c.tag = tag)

/-- Model of `elem.findall("tag", ns)`: the direct children with the given tag. -/
def childrenNamed (e : XmlElem) (tag : String) : List XmlElem :=
  e.children.filter (fun c => c.tag = tag)

/-- Model of `elem.find("tag", ns)`: the first direct child with the given tag. -/
def findChild? (e : XmlElem) (tag : String) : Option XmlElem :=
  (childrenNamed e tag).head?

/-- A raw SDN document: either malformed markup (on which `ET.fromstring`
raises `ParseError`) or a well-formed element tree. -/
inductive SdnDoc where
  | malformed
  | wellFormed (root : XmlElem)

/-- Model of `ET.fromstring(xml_content)`. -/
def fromstring : SdnDoc → Except PyErr XmlElem
  | .malformed => .error .parseError
  | .wellFormed root => .ok root

/-! ## `src/sanctions/ofac.py` -/

/-- The constant `OFACIranFetcher.IRAN_PROGRAMS`. -/
def IRAN_PROGRAMS : List String :=
  ["IRAN", "IRGC", "IRAN-HR", "IRAN-TRA", "IRAN-EO13846"]

/-- The constant `OFACIranFetcher.CRYPTO_ID_TYPES`. -/
def CRYPTO_ID_TYPES : List String :=
  ["Digital Currency Address - XBT", "Digital Currency Address - ETH",
   "Digital Currency Address - USDT", "Digital Currency Address - TRX"]

/-- Model of `OFACIranFetcher._parse_blockchain_type`: the fixed mapping table,
`dict.get` with default `"unknown"`. -/
def parseBlockchainType (id_type : String) : String :=
  (([("Digital Currency Address - XBT", "bitcoin"),
     ("Digital Currency Address - ETH", "ethereum"),
     ("Digital Currency Address - USDT", "usdt_trc20"),
     ("Digital Currency Address - TRX", "tron")]).lookup id_type).getD "unknown"

/-- One extracted crypto-address record
`{"address": ..., "blockchain": ..., "id_type": ...}`.  `address` is
`none` when the source `<idNumber>` element is present but has no text
(Python stores `None` there). -/
structure CryptoAddr where
  address : Option String
  blockchain : String
  id_type : String
deriving Repr, DecidableEq

/-- The `IranDesignation` dataclass.  `sdn_id`, `sdn_type` and `remarks`
are `Option String` because the Python code stores `elem.text`, which is
`None` for an empty element. -/
structure IranDesignation where
  sdn_id : Option String
  name : String
  sdn_type : Option String
  program : String
  addresses : List Json := []
  aliases : List String
  remarks : Option String
  crypto_addresses : List CryptoAddr
  is_irgc : Bool
  is_exchange : Bool
deriving Repr

/-- Python truthiness filter on an optional string: `filter(None, ...)` and
`if p.text` drop both `None` and `""`. -/
def truthy : Option String → Option String
  | some t => if t = "" then none else some t
  | none => none

/-- Monadic map over `Except`: the model of a Python `for` loop that
builds a list, aborting at the first raised exception. -/
def mapME {α β ε : Type} (f : α → Except ε β) : List α → Except ε (List β)
  | [] => .ok []
  | a :: t => do
    let b ← f a
    let r ← mapME f t
    return b :: r

/-- The line `program_names = [p.text for p in entry.findall(".//program", ns) if p.text]`. -/
def programNamesOf (entry : XmlElem) : List String :=
  (findallDesc entry "program").filterMap (fun p => truthy p.text)

/-- The line `iran_programs = [p for p in program_names if any(ip in p for ip in
IRAN_PROGRAMS)]`. -/
def iranProgramsOf (entry : XmlElem) : List String :=
  (programNamesOf entry).filter (fun p => IRAN_PROGRAMS.any (fun ip => strIn ip p))

/-- The pattern `uid.text if uid is not None else ""` (the stored value is `None` when
the element exists without text). -/
def childTextOrEmpty (entry : XmlElem) (tag : String) : Option String :=
  match findChild? entry tag with
  | some e => e.text
  | none => some ""

/-- The line `name = " ".join(filter(None, [firstName-text, lastName-text]))`. -/
def nameOf (entry : XmlElem) : String :=
  pyJoin " " ([childTextOrEmpty entry "firstName",
               childTextOrEmpty entry "lastName"].filterMap truthy)

/-- One pass of the `for id_entry in id_list.findall("id", ns)` loop
(lines 96–106 of `ofac.py`): an `id` child contributes a record iff its
`idType` child exists and its text is in `CRYPTO_ID_TYPES`. -/
def cryptoAddrOfId (id_entry : XmlElem) : Option CryptoAddr :=
  match findChild? id_entry "idType" with
  | some idt =>
    match idt.text with
    | some t =>
      if t ∈ CRYPTO_ID_TYPES then
        some { address :=
                 match findChild? id_entry "idNumber" with
                 | some idn => idn.text
                 | none => some "",
               blockchain := parseBlockchainType t,
               id_type := t }
      else none
    | none => none
  | none => none

/-- The crypto-address extraction over `idList` (lines 93–106 of
`ofac.py`). -/
def cryptoAddressesOf (entry : XmlElem) : List CryptoAddr :=
  match findChild? entry "idList" with
  | none => []
  | some id_list => (childrenNamed id_list "id").filterMap cryptoAddrOfId

/-- The alias extraction loop over `akaList` (lines 109–115 of `ofac.py`). -/
def aliasesOf (entry : XmlElem) : List String :=
  match findChild? entry "akaList" with
  | none => []
  | some aka_list =>
    (childrenNamed aka_list "aka").filterMap (fun aka =>
      match findChild? aka "lastName" with
      | some aka_name => truthy aka_name.text
      | none => none)

/-- The body of the `for entry in root.findall(".//sdnEntry", ns)` loop of
`OFACIranFetcher.parse_iran_designations`: returns `none` for an entry
skipped by `continue` (no Iran program match), `some d` for a retained
designation, and an error when the Python body raises (`remarks.upper()` /
`remarks.lower()` on `None`, reached only when the preceding `or` does not
short-circuit). -/
def parseEntry (entry : XmlElem) : Except PyErr (Option IranDesignation) := do
  let iran_programs := iranProgramsOf entry
  if iran_programs.isEmpty then
    return none
  let name := nameOf entry
  let remarks := childTextOrEmpty entry "remarks"
  let is_irgc ←
    if iran_programs.any (fun p => strIn "IRGC" p) then pure true
    else
      match remarks with
      | some s => pure (strIn "IRGC" (pyUpper s))
      | none => Except.error PyErr.attributeError
  let is_exchange ←
    if strIn "exchange" (pyLower name) then pure true
    else
      match remarks with
      | some s => pure (strIn "exchange" (pyLower s))
      | none => Except.error PyErr.attributeError
  return some { sdn_id := childTextOrEmpty entry "uid", name,
                sdn_type := childTextOrEmpty entry "sdnType",
                program := pyJoin ", " iran_programs,
                aliases := aliasesOf entry, remarks,
                crypto_addresses := cryptoAddressesOf entry,
                is_irgc, is_exchange }

/-- Model of `OFACIranFetcher.parse_iran_designations`. -/
def parseIranDesignations (doc : SdnDoc) : Except PyErr (List IranDesignation) := do
  let root ← fromstring doc
  let entries := findallDesc root "sdnEntry"
  let parsed ← mapME parseEntry entries
  return parsed.filterMap id

/-! ## JSON access primitives with Python failure semantics -/

/-- Subscript `d[k]`: `KeyError` if the key is absent, `TypeError` when `d` is not a
dict. -/
def Json.getItem (j : Json) (k : String) : Except PyErr Json :=
  match j with
  | .obj fields =>
    match fields.lookup k with
    | some v => .ok v
    | none => .error (.keyError k)
  | _ => .error .typeError

/-- Access `d.get(k, default)`: `AttributeError` when `d` is not a dict. -/
def Json.dictGet (j : Json) (k : String) (dflt : Json) : Except PyErr Json :=
  match j with
  | .obj fields => .ok ((fields.lookup k).getD dflt)
  | _ => .error .attributeError

/-- Iteration `for x in v`: the elements of a JSON array.  (The adapters only ever
iterate list-shaped response fields; a non-list is modelled as a
`TypeError`.) -/
def Json.asList : Json → Except PyErr (List Json)
  | .arr l => .ok l
  | _ => .error .typeError

/-- Subscript `l[0]`: `IndexError` on an empty list. -/
def Json.item0 : Json → Except PyErr Json
  | .arr [] => .error .indexError
  | .arr (x :: _) => .ok x
  | _ => .error .typeError

/-- Call `v.lower()` on a response field: requires a string
(`AttributeError` otherwise). -/
def Json.asStr : Json → Except PyErr String
  | .str s => .ok s
  | _ => .error .attributeError

/-- Python `v == "t"` where `v` is a JSON value: true only for the equal
string. -/
def Json.eqStr : Json → String → Bool
  | .str s, t => s = t
  | _, _ => false

/-- Conversion `Decimal(v)`: integers convert exactly; numeric strings (the form the
explorers send) parse to their integer value; anything else raises. -/
def pyDecimal : Json → Except PyErr ℚ
  | .num n => .ok (n : ℚ)
  | .str s =>
    match s.toInt? with
    | some n => .ok (n : ℚ)
    | none => .error .badNumber
  | _ => .error .badNumber

/-- Conversion `int(v)`. -/
def pyInt : Json → Except PyErr Int
  | .num n => .ok n
  | .str s =>
    match s.toInt? with
    | some n => .ok n
    | none => .error .badNumber
  | _ => .error .badNumber

/-- Division `v / 1000` on an epoch-milliseconds field (`TypeError` if not a
number). -/
def pyDiv1000 : Json → Except PyErr ℚ
  | .num n => .ok ((n : ℚ) / 1000)
  | _ => .error .typeError

/-! ## The default decimal context

Every adapter computes `Decimal(A) / Decimal(10**d)`.  Construction of a
`Decimal` from an int (or a numeric string) is exact, but *division* is
performed under the default context of the `decimal` module, which the
repository never widens: the exact quotient is rounded to 28 significant
digits with `ROUND_HALF_EVEN`.  A quotient needing at most 28 significant
digits is therefore returned exactly; a longer one loses its low digits. -/

/-- Round a rational to the nearest integer, ties to even (the
`ROUND_HALF_EVEN` rounding of the default decimal context). -/
def roundHalfEven (q : ℚ) : ℤ :=
  if q - ⌊q⌋ < 1/2 then ⌊q⌋
  else if q - ⌊q⌋ > 1/2 then ⌊q⌋ + 1
  else if ⌊q⌋ % 2 = 0 then ⌊q⌋ else ⌊q⌋ + 1

/-- Round a rational to 28 significant digits, ties to even: writing
`|q| = c * 10 ^ (L - 27)` with coefficient `c` in `[10^27, 10^28)` (where
`L = ⌊log10 |q|⌋`), the coefficient is rounded to an integer.  A value
needing at most 28 significant digits is returned unchanged. -/
def decRound28 (q : ℚ) : ℚ :=
  if q = 0 then 0
  else (roundHalfEven (q * (10 : ℚ) ^ (27 - Int.log 10 |q|)) : ℚ) *
    (10 : ℚ) ^ (Int.log 10 |q| - 27)

/-- Python `Decimal(x) / Decimal(y)` under the default decimal context:
the exact quotient rounded to 28 significant digits (`ROUND_HALF_EVEN`). -/
def decDiv (x y : ℚ) : ℚ := decRound28 (x / y)

/-! ## `src/models.py` -/

/-- The enum `BlockchainType` (`src/models.py`). -/
inductive BlockchainType where
  | bitcoin
  | ethereum
  | tron
  | usdt_erc20
  | usdt_trc20
deriving DecidableEq, Repr

/-- Construction `BlockchainType(s)` of the enum: `ValueError` for any string
outside the closed set of values. -/
def BlockchainType.ofString : String → Except PyErr BlockchainType
  | "bitcoin" => .ok .bitcoin
  | "ethereum" => .ok .ethereum
  | "tron" => .ok .tron
  | "usdt_erc20" => .ok .usdt_erc20
  | "usdt_trc20" => .ok .usdt_trc20
  | s => .error (.valueError s)

/-! ## `src/monitors/blockchain.py`

Each adapter's HTTP layer is abstracted into an `Env`: for every endpoint,
either the decoded JSON body (`response.json()` after `client.get`) or the
exception the transport raised. -/

/-- The `Transaction` dataclass.  `tx_hash`, `from_address` and
`to_address` hold the raw JSON values the Python code stores without
inspection; `value` and timestamps are exact rationals. -/
structure Transaction where
  tx_hash : Json
  blockchain : BlockchainType
  from_address : Json
  to_address : Json
  value : ℚ
  value_usd : Option ℚ := none
  block_number : Int := 0
  block_timestamp : Option ℚ := none
  raw_data : Option Json := none
deriving Repr

/-- The HTTP world the monitors run against: one response (or transport
error) per endpoint and address. -/
structure Env where
  etherscanTxlist : String → Except PyErr Json
  etherscanTokentx : String → Except PyErr Json
  trongridTx : String → Except PyErr Json
  trongridTrc20 : String → Except PyErr Json
  blockchairAddress : String → Except PyErr Json

/-- The body of the result loop of `EtherscanMonitor.get_transactions`
(field accesses in the evaluation order of Python). -/
def parseEthTx (tx : Json) : Except PyErr Transaction := do
  let h ← tx.getItem "hash"
  let f ← tx.getItem "from"
  let t ← tx.getItem "to"
  let v ← pyDecimal (← tx.getItem "value")
  let bn ← pyInt (← tx.getItem "blockNumber")
  let ts ← pyInt (← tx.getItem "timeStamp")
  return { tx_hash := h, blockchain := .ethereum, from_address := f,
           to_address := t, value := decDiv v (10 ^ 18), block_number := bn,
           block_timestamp := some (ts : ℚ), raw_data := some tx }

/-- Model of `EtherscanMonitor.get_transactions`. -/
def EtherscanMonitor.getTransactions (env : Env) (address : String) :
    Except PyErr (List Transaction) := do
  let data ← env.etherscanTxlist address
  let status ← data.dictGet "status" Json.null
  if !(status.eqStr "1") then
    return []
  let result ← (← data.dictGet "result" (Json.arr [])).asList
  mapME parseEthTx result

/-- The body of the result loop of `EtherscanMonitor.get_token_transfers`. -/
def parseEthTokenTx (tx : Json) : Except PyErr Transaction := do
  let decimals ← pyInt (← tx.dictGet "tokenDecimal" (Json.num 18))
  let h ← tx.getItem "hash"
  let sym ← (← tx.dictGet "tokenSymbol" (Json.str "")).asStr
  let chain :=
    if strIn "usdt" (pyLower sym) then BlockchainType.usdt_erc20
    else BlockchainType.ethereum
  let f ← tx.getItem "from"
  let t ← tx.getItem "to"
  let v ← pyDecimal (← tx.getItem "value")
  let bn ← pyInt (← tx.getItem "blockNumber")
  let ts ← pyInt (← tx.getItem "timeStamp")
  return { tx_hash := h, blockchain := chain, from_address := f,
           to_address := t, value := decDiv v ((10 : ℚ) ^ decimals),
           block_number := bn, block_timestamp := some (ts : ℚ),
           raw_data := some tx }

/-- Model of `EtherscanMonitor.get_token_transfers` (no `contract_address` filter is
ever passed by the monitor). -/
def EtherscanMonitor.getTokenTransfers (env : Env) (address : String) :
    Except PyErr (List Transaction) := do
  let data ← env.etherscanTokentx address
  let status ← data.dictGet "status" Json.null
  if !(status.eqStr "1") then
    return []
  let result ← (← data.dictGet "result" (Json.arr [])).asList
  mapME parseEthTokenTx result

/-- The body of the data loop of `TrongridMonitor.get_transactions`:
`none` when the contract type is not `TransferContract` (no append). -/
def parseTronTx (tx : Json) : Except PyErr (Option Transaction) := do
  let raw_data ← tx.dictGet "raw_data" (Json.obj [])
  let contract ← (← raw_data.dictGet "contract" (Json.arr [Json.obj []])).item0
  let ctype ← contract.dictGet "type" Json.null
  if ctype.eqStr "TransferContract" then
    let value_data ← (← contract.dictGet "parameter" (Json.obj [])).dictGet "value" (Json.obj [])
    let h ← tx.getItem "txID"
    let f ← value_data.dictGet "owner_address" (Json.str "")
    let t ← value_data.dictGet "to_address" (Json.str "")
    let v ← pyDecimal (← value_data.dictGet "amount" (Json.num 0))
    let ts ← pyDiv1000 (← tx.dictGet "block_timestamp" (Json.num 0))
    return some { tx_hash := h, blockchain := .tron, from_address := f,
                  to_address := t, value := decDiv v (10 ^ 6),
                  block_timestamp := some ts, raw_data := some tx }
  else
    return none

/-- Model of `TrongridMonitor.get_transactions`. -/
def TrongridMonitor.getTransactions (env : Env) (address : String) :
    Except PyErr (List Transaction) := do
  let data ← env.trongridTx address
  let items ← (← data.dictGet "data" (Json.arr [])).asList
  let opts ← mapME parseTronTx items
  return opts.filterMap id

/-- The body of the data loop of `TrongridMonitor.get_trc20_transfers`. -/
def parseTrc20Tx (tx : Json) : Except PyErr Transaction := do
  let token_info ← tx.dictGet "token_info" (Json.obj [])
  let decimals ← pyInt (← token_info.dictGet "decimals" (Json.num 6))
  let h ← tx.getItem "transaction_id"
  let f ← tx.dictGet "from" (Json.str "")
  let t ← tx.dictGet "to" (Json.str "")
  let v ← pyDecimal (← tx.dictGet "value" (Json.num 0))
  let ts ← pyDiv1000 (← tx.dictGet "block_timestamp" (Json.num 0))
  return { tx_hash := h, blockchain := .usdt_trc20, from_address := f,
           to_address := t, value := decDiv v ((10 : ℚ) ^ decimals),
           block_timestamp := some ts, raw_data := some tx }

/-- Model of `TrongridMonitor.get_trc20_transfers`. -/
def TrongridMonitor.getTrc20Transfers (env : Env) (address : String) :
    Except PyErr (List Transaction) := do
  let data ← env.trongridTrc20 address
  let items ← (← data.dictGet "data" (Json.arr [])).asList
  mapME parseTrc20Tx items

/-- The dict returned by `BlockchairMonitor.get_address_info`.  `tx_count`
holds the raw JSON value: the code stores `transaction_count` without any
scaling or conversion. -/
structure AddressInfo where
  balance : ℚ
  tx_count : Json
  received : ℚ
  spent : ℚ
deriving Repr

/-- Model of `BlockchairMonitor.get_address_info`. -/
def BlockchairMonitor.getAddressInfo (env : Env) (address : String) :
    Except PyErr AddressInfo := do
  let data ← env.blockchairAddress address
  let addr_data ← (← (← data.dictGet "data" (Json.obj [])).dictGet address (Json.obj [])).dictGet "address" (Json.obj [])
  let balance ← pyDecimal (← addr_data.dictGet "balance" (Json.num 0))
  let tx_count ← addr_data.dictGet "transaction_count" (Json.num 0)
  let received ← pyDecimal (← addr_data.dictGet "received" (Json.num 0))
  let spent ← pyDecimal (← addr_data.dictGet "spent" (Json.num 0))
  return { balance := decDiv balance (10 ^ 8), tx_count,
           received := decDiv received (10 ^ 8), spent := decDiv spent (10 ^ 8) }

/-- Model of `IranMonitor.monitor_address`: dispatch on the blockchain tag.  For
`bitcoin` the summary is fetched and logged, then `[]` is returned. -/
def IranMonitor.monitorAddress (env : Env) (address : String) :
    BlockchainType → Except PyErr (List Transaction)
  | .ethereum => EtherscanMonitor.getTransactions env address
  | .usdt_erc20 => EtherscanMonitor.getTokenTransfers env address
  | .tron => TrongridMonitor.getTransactions env address
  | .usdt_trc20 => TrongridMonitor.getTrc20Transfers env address
  | .bitcoin => do
    let _info ← BlockchairMonitor.getAddressInfo env address
    return []

/-- One element of the `addresses` list passed to `monitor_all`:
a dict `{"address": ..., "blockchain": ...}`. -/
structure AddrSpec where
  address : String
  blockchain : String
deriving Repr, DecidableEq

/-- Python `results[address] = v` on an insertion-ordered dict: replace in
place if the key exists, else append. -/
def dictInsert {α : Type} (d : List (String × α)) (k : String) (v : α) :
    List (String × α) :=
  if d.any (fun p => p.1 = k) then
    d.map (fun p => if p.1 = k then (k, v) else p)
  else
    d ++ [(k, v)]

/-- One pass of the first loop of `monitor_all`: convert the blockchain
string with `BlockchainType(...)` — this is outside any `try` and raises
`ValueError` on an invalid tag — and pair the address with the coroutine
for it (the coroutine body does not run yet). -/
def taskOf (a : AddrSpec) : Except PyErr (String × BlockchainType) := do
  let b ← BlockchainType.ofString a.blockchain
  return (a.address, b)

/-- One pass of the second loop of `monitor_all`: await the coroutine
under `try/except`, recording its result — or `[]` if it raised — under
the address key. -/
def recordStep (env : Env) (acc : List (String × List Transaction))
    (ab : String × BlockchainType) : List (String × List Transaction) :=
  match IranMonitor.monitorAddress env ab.1 ab.2 with
  | .ok txs => dictInsert acc ab.1 txs
  | .error _ => dictInsert acc ab.1 []

/-- Model of `IranMonitor.monitor_all`: the first loop builds the task list (tag
conversion happens here, unguarded), the second loop awaits each task
under `try/except` and fills the result dict. -/
def IranMonitor.monitorAll (env : Env) (addresses : List AddrSpec) :
    Except PyErr (List (String × List Transaction)) := do
  let tasks ← mapME taskOf addresses
  let results := tasks.foldl (recordStep env) []
  return results

/-- The value recorded for one awaited task of `monitor_all`: the
monitoring result, or `[]` when that task raised (the `except` branch). -/
def monitorCaught (env : Env) (address : String) (b : BlockchainType) :
    List Transaction :=
  match IranMonitor.monitorAddress env address b with
  | .ok txs => txs
  | .error _ => []

/-- The claim-side reading of the retention rule: some program-code field
of the entry contains one of the configured target codes as a substring. -/
def entryMatchesIran (e : XmlElem) : Prop :=
  ∃ pe ∈ findallDesc e "program", ∃ t, pe.text = some t ∧
    ∃ ip ∈ IRAN_PROGRAMS, strIn ip t = true

/-- A concrete document with a single non-Iran entry: `c5_parse_error_behavior`
applies and yields the empty designation list. -/
def c5Root : XmlElem :=
  ⟨"sdnList", none,
    [⟨"sdnEntry", none,
      [⟨"programList", none, [⟨"program", some "CUBA", []⟩]⟩,
       ⟨"uid", some "1", []⟩]⟩]⟩

/-- A concrete one-entry Iran-program document for the `c6_retention_iff`
witness. -/
def c6Root : XmlElem :=
  ⟨"sdnList", none,
    [⟨"sdnEntry", none,
      [⟨"programList", none, [⟨"program", some "IRAN", []⟩]⟩,
       ⟨"uid", some "123", []⟩,
       ⟨"lastName", some "Test", []⟩,
       ⟨"sdnType", some "Entity", []⟩,
       ⟨"remarks", some "none", []⟩]⟩]⟩

/-- The designation `c6Root` parses to. -/
def c6Designation : IranDesignation :=
  { sdn_id := some "123", name := "Test", sdn_type := some "Entity",
    program := "IRAN", addresses := [], aliases := [], remarks := some "none",
    crypto_addresses := [], is_irgc := false, is_exchange := false }

/-- Concrete IRGC-tagged entry for the `c7_flag_derivation` witness. -/
def irgcEntry : XmlElem :=
  ⟨"sdnEntry", none,
    [⟨"programList", none, [⟨"program", some "IRGC", []⟩]⟩,
     ⟨"lastName", some "Unit", []⟩,
     ⟨"remarks", some "linked to IRGC", []⟩]⟩

/-- The designation `irgcEntry` parses to. -/
def irgcD : IranDesignation :=
  { sdn_id := some "", name := "Unit", sdn_type := some "",
    program := "IRGC", addresses := [], aliases := [],
    remarks := some "linked to IRGC", crypto_addresses := [],
    is_irgc := true, is_exchange := false }

/-- Concrete IRAN-TRA entry with no military marker. -/
def traEntry : XmlElem :=
  ⟨"sdnEntry", none,
    [⟨"programList", none, [⟨"program", some "IRAN-TRA", []⟩]⟩,
     ⟨"lastName", some "Trader", []⟩,
     ⟨"remarks", some "trade company", []⟩]⟩

/-- The designation `traEntry` parses to. -/
def traD : IranDesignation :=
  { sdn_id := some "", name := "Trader", sdn_type := some "",
    program := "IRAN-TRA", addresses := [], aliases := [],
    remarks := some "trade company", crypto_addresses := [],
    is_irgc := false, is_exchange := false }

/-- A concrete document with one Bitcoin-type identifier for the
`c9_no_unknown_blockchain` witness. -/
def c9Root : XmlElem :=
  ⟨"sdnList", none,
    [⟨"sdnEntry", none,
      [⟨"programList", none, [⟨"program", some "IRAN", []⟩]⟩,
       ⟨"lastName", some "Holder", []⟩,
       ⟨"remarks", some "r", []⟩,
       ⟨"idList", none,
         [⟨"id", none,
           [⟨"idType", some "Digital Currency Address - XBT", []⟩,
            ⟨"idNumber", some "bc1qexample", []⟩]⟩]⟩]⟩]⟩

/-- The designation `c9Root` parses to. -/
def c9Designation : IranDesignation :=
  { sdn_id := some "", name := "Holder", sdn_type := some "",
    program := "IRAN", addresses := [], aliases := [], remarks := some "r",
    crypto_addresses :=
      [{ address := some "bc1qexample", blockchain := "bitcoin",
         id_type := "Digital Currency Address - XBT" }],
    is_irgc := false, is_exchange := false }

/-! ## The `monitor_all` result dictionary -/

/-- Key lookup in the insertion-ordered dict model (`results[k]` /
`results.get(k)`). -/
def dictLookup {α : Type} (d : List (String × α)) (k : String) : Option α :=
  match d with
  | [] => none
  | p :: t => if p.1 = k then some p.2 else dictLookup t k

/-- The blockchain tag a valid spec converts to. -/
def tagOf (s : AddrSpec) : BlockchainType :=
  ((BlockchainType.ofString s.blockchain).toOption).getD .bitcoin

/-- The value `monitor_all` records for one spec (valid tag assumed): the
monitoring result, or `[]` when the awaited task raised. -/
def monitorCaughtStr (env : Env) (s : AddrSpec) : List Transaction :=
  match BlockchainType.ofString s.blockchain with
  | .ok b => monitorCaught env s.address b
  | .error _ => []

/-! ## Claims about the monitor aggregator -/

/-- A world in which every explorer endpoint fails at the transport
level. -/
def env0 : Env where
  etherscanTxlist := fun _ => .error .netError
  etherscanTokentx := fun _ => .error .netError
  trongridTx := fun _ => .error .netError
  trongridTrc20 := fun _ => .error .netError
  blockchairAddress := fun _ => .error .netError

/-- A two-address batch over `env0` (both fetches raise `netError`):
`c1_batch_isolation` applies and both keys exist. -/
def c1Specs : List AddrSpec := [⟨"0xabc", "ethereum"⟩, ⟨"1BvBM", "bitcoin"⟩]

/-- A batch with a duplicated address for the `c10_key_set_overwrite`
witness: two specs share the address `"0xabc"`. -/
def c10Specs : List AddrSpec :=
  [⟨"0xabc", "ethereum"⟩, ⟨"0xabc", "usdt_erc20"⟩]

/-- A world returning non-success payloads: Etherscan endpoints answer
`status = "0"`, TronGrid endpoints answer an error object with no `data`
key. -/
def envNonSuccess : Env where
  etherscanTxlist := fun _ =>
    .ok (.obj [("status", .str "0"), ("message", .str "NOTOK")])
  etherscanTokentx := fun _ =>
    .ok (.obj [("status", .str "0"), ("message", .str "NOTOK")])
  trongridTx := fun _ => .ok (.obj [("statusCode", .num 404)])
  trongridTrc20 := fun _ => .ok (.obj [("statusCode", .num 404)])
  blockchairAddress := fun _ => .error .netError

/-- The Etherscan response element of the precision test: amount
`123456789012345678` wei. -/
def ethPrecisionTx : Json :=
  Json.obj [("hash", .str "0xhash"), ("from", .str "0xfrom"),
    ("to", .str "0xto"), ("value", .num 123456789012345678),
    ("blockNumber", .num 21000000), ("timeStamp", .num 1700000000)]

/-- The transaction `ethPrecisionTx` parses to. -/
def ethPrecisionT : Transaction :=
  { tx_hash := .str "0xhash", blockchain := .ethereum,
    from_address := .str "0xfrom", to_address := .str "0xto",
    value := decDiv ((123456789012345678 : ℤ) : ℚ) (10 ^ 18),
    block_number := 21000000,
    block_timestamp := some ((1700000000 : ℤ) : ℚ),
    raw_data := some ethPrecisionTx }

/-- An Etherscan response element whose amount `10^28 + 1` has 29
significant digits, one more than the default decimal context keeps. -/
def ethOverflowTx : Json :=
  Json.obj [("hash", .str "0xhash"), ("from", .str "0xfrom"),
    ("to", .str "0xto"), ("value", .num (10 ^ 28 + 1)),
    ("blockNumber", .num 1), ("timeStamp", .num 1700000000)]

/-- A world whose Blockchair endpoint reports balance `12345` satoshi,
`7` transactions, received `500`, spent `300`. -/
def envBtc : Env where
  etherscanTxlist := fun _ => .error .netError
  etherscanTokentx := fun _ => .error .netError
  trongridTx := fun _ => .error .netError
  trongridTrc20 := fun _ => .error .netError
  blockchairAddress := fun a =>
    .ok (.obj [("data", .obj [(a, .obj [("address", .obj
      [("balance", .num 12345), ("transaction_count", .num 7),
       ("received", .num 500), ("spent", .num 300)])])])])

/-- The summary `envBtc` produces. -/
def btcInfo : AddressInfo :=
  { balance := decDiv ((12345 : ℤ) : ℚ) (10 ^ 8), tx_count := Json.num 7,
    received := decDiv ((500 : ℤ) : ℚ) (10 ^ 8),
    spent := decDiv ((300 : ℤ) : ℚ) (10 ^ 8) }

/-! ## Basic lemmas about the string model -/

theorem isPre_append (n h t : List Char) (hp : isPre n h = true) :
    isPre n (h ++ t) = true := by
  induction n generalizing h with
  | nil => simp [isPre]
  | cons a n ih =>
    cases h with
    | nil => simp [isPre] at hp
    | cons b h =>
      simp only [isPre, Bool.and_eq_true] at hp
      simp only [List.cons_append, isPre, Bool.and_eq_true]
      exact ⟨hp.1, ih h hp.2⟩

theorem hasSub_append_right (h t n : List Char) (hs : hasSub t n = true) :
    hasSub (h ++ t) n = true := by
  induction h with
  | nil => simpa using hs
  | cons b h ih =>
    simp only [List.cons_append, hasSub, Bool.or_eq_true]
    exact Or.inr ih

theorem hasSub_append_left (h t n : List Char) (hs : hasSub h n = true) :
    hasSub (h ++ t) n = true := by
  induction h with
  | nil =>
    simp only [hasSub, Bool.or_eq_true] at hs
    rcases hs with hs | hs
    · cases n with
      | nil => cases t <;> simp [hasSub, isPre]
      | cons a n => simp [isPre] at hs
    · cases hs
  | cons b h ih =>
    simp only [hasSub, Bool.or_eq_true] at hs ⊢
    rcases hs with hs | hs
    · exact Or.inl (isPre_append _ _ _ hs)
    · exact Or.inr (ih hs)

theorem hasSub_nil (n : List Char) (hn : n ≠ []) : hasSub [] n = false := by
  cases n with
  | nil => simp at hn
  | cons a n => simp [hasSub, isPre]

theorem strIn_append_left (n a b : String) (hs : strIn n a = true) :
    strIn n (a ++ b) = true := by
  simpa [strIn] using hasSub_append_left a.data b.data n.data (by simpa [strIn] using hs)

theorem strIn_append_right (n a b : String) (hs : strIn n b = true) :
    strIn n (a ++ b) = true := by
  simpa [strIn] using hasSub_append_right a.data b.data n.data (by simpa [strIn] using hs)

/-- A string that occurs in the joined list survives the join as a
substring. -/
theorem strIn_pyJoin (sep n x : String) (l : List String)
    (hx : x ∈ l) (hs : strIn n x = true) : strIn n (pyJoin sep l) = true := by
  induction l with
  | nil => cases hx
  | cons y r ih =>
    cases r with
    | nil =>
      rcases List.mem_singleton.mp hx with rfl
      simpa [pyJoin] using hs
    | cons z r' =>
      rcases List.mem_cons.mp hx with rfl | hx'
      · simpa [pyJoin, String.append_assoc] using
          strIn_append_left n x (sep ++ pyJoin sep (z :: r')) hs
      · have := ih hx'
        simpa [pyJoin, String.append_assoc] using
          strIn_append_right n (y ++ sep) (pyJoin sep (z :: r')) this

theorem strIn_empty_false (n : String) (hn : n ≠ "") : strIn n "" = false := by
  apply hasSub_nil
  intro hd
  exact hn (by cases n with | mk l => simp at hd; simp [hd])

/-! ## Generic lemmas about `mapME` -/

theorem mapME_eq_map {α β ε : Type} (f : α → Except ε β) (g : α → β) (l : List α)
    (h : ∀ a ∈ l, f a = .ok (g a)) : mapME f l = .ok (l.map g) := by
  induction l with
  | nil => rfl
  | cons a t ih =>
    rw [List.map_cons, mapME, h a (by simp), ih (fun x hx => h x (by simp [hx]))]
    rfl

theorem exists_of_mapME_ok {α β ε : Type} (f : α → Except ε β) (l : List α)
    (res : List β) (h : mapME f l = .ok res) : ∀ b ∈ res, ∃ a ∈ l, f a = .ok b := by
  induction l generalizing res with
  | nil =>
    cases h
    simp
  | cons a t ih =>
    rw [mapME] at h
    cases hfa : f a with
    | error e => simp [hfa, Bind.bind, Except.bind] at h
    | ok b =>
      simp only [hfa, Bind.bind, Except.bind] at h
      cases hft : mapME f t with
      | error e => simp [hft] at h
      | ok res' =>
        simp only [hft, pure, Except.pure, Except.ok.injEq] at h
        subst h
        intro x hx
        rcases List.mem_cons.mp hx with rfl | hx'
        · exact ⟨a, by simp, hfa⟩
        · rcases ih res' hft x hx' with ⟨a', ha', hfa'⟩
          exact ⟨a', by simp [ha'], hfa'⟩

theorem mapME_ok_forall {α β ε : Type} (f : α → Except ε β) (l : List α)
    (res : List β) (h : mapME f l = .ok res) : ∀ a ∈ l, ∃ b, f a = .ok b := by
  induction l generalizing res with
  | nil => simp
  | cons a t ih =>
    rw [mapME] at h
    cases hfa : f a with
    | error e => simp [hfa, Bind.bind, Except.bind] at h
    | ok b =>
      simp only [hfa, Bind.bind, Except.bind] at h
      cases hft : mapME f t with
      | error e => simp [hft] at h
      | ok res' =>
        intro x hx
        rcases List.mem_cons.mp hx with rfl | hx'
        · exact ⟨b, hfa⟩
        · exact ih res' hft x hx'

/-! ## Characterization of `parseEntry` -/

/-- An entry with no Iran-program match is skipped by `continue`. -/
theorem parseEntry_skip (e : XmlElem) (h : iranProgramsOf e = []) :
    parseEntry e = .ok none := by
  simp [parseEntry, h, pure, Except.pure]

/-- What a successfully retained designation looks like, field by field. -/
theorem parseEntry_ok_some (e : XmlElem) (d : IranDesignation)
    (h : parseEntry e = .ok (some d)) :
    iranProgramsOf e ≠ [] ∧
    d.program = pyJoin ", " (iranProgramsOf e) ∧
    d.name = nameOf e ∧
    d.remarks = childTextOrEmpty e "remarks" ∧
    d.crypto_addresses = cryptoAddressesOf e ∧
    d.is_irgc = ((iranProgramsOf e).any (fun p => strIn "IRGC" p) ||
      (match childTextOrEmpty e "remarks" with
       | some s => strIn "IRGC" (pyUpper s)
       | none => false)) ∧
    d.is_exchange = (strIn "exchange" (pyLower (nameOf e)) ||
      (match childTextOrEmpty e "remarks" with
       | some s => strIn "exchange" (pyLower s)
       | none => false)) := by
  by_cases hemp : (iranProgramsOf e).isEmpty
  · simp [parseEntry, hemp, pure, Except.pure] at h
  · have hne : iranProgramsOf e ≠ [] := by
      simpa [List.isEmpty_iff] using hemp
    refine ⟨hne, ?_⟩
    simp only [parseEntry, hemp, Bool.false_eq_true, if_false] at h
    cases hr : childTextOrEmpty e "remarks" with
    | none =>
      rw [hr] at h
      cases hirgc : (iranProgramsOf e).any (fun p => strIn "IRGC" p) <;>
        cases hexch : strIn "exchange" (pyLower (nameOf e)) <;>
          simp [hirgc, hexch, Bind.bind, Except.bind, pure, Except.pure] at h <;>
          (try cases h) <;> simp [hirgc, hexch, hr]
    | some s =>
      rw [hr] at h
      cases hirgc : (iranProgramsOf e).any (fun p => strIn "IRGC" p) <;>
        cases hexch : strIn "exchange" (pyLower (nameOf e)) <;>
          simp only [hirgc, hexch, Bool.false_eq_true, Bool.true_eq_false, if_true,
            if_false, Bind.bind, Except.bind, pure, Except.pure, Except.ok.injEq,
            Option.some.injEq] at h <;>
          (cases h) <;> simp [hirgc, hexch, hr]

/-- A designation that is skipped: the entry produced `none`. -/
theorem parseEntry_ok_none (e : XmlElem) (h : parseEntry e = .ok none) :
    iranProgramsOf e = [] := by
  by_cases hemp : (iranProgramsOf e).isEmpty
  · simpa [List.isEmpty_iff] using hemp
  · exfalso
    simp only [parseEntry, hemp, Bool.false_eq_true, if_false] at h
    cases hr : childTextOrEmpty e "remarks" <;> rw [hr] at h <;>
      cases hirgc : (iranProgramsOf e).any (fun p => strIn "IRGC" p) <;>
        cases hexch : strIn "exchange" (pyLower (nameOf e)) <;>
          simp [hirgc, hexch, Bind.bind, Except.bind, pure, Except.pure] at h

/-- Unpacking membership in the output of `parse_iran_designations`. -/
theorem mem_parse_output (doc : SdnDoc) (ds : List IranDesignation)
    (h : parseIranDesignations doc = .ok ds) (d : IranDesignation) (hd : d ∈ ds) :
    ∃ root, fromstring doc = .ok root ∧
      ∃ e ∈ findallDesc root "sdnEntry", parseEntry e = .ok (some d) := by
  cases doc with
  | malformed => simp [parseIranDesignations, fromstring, Bind.bind, Except.bind] at h
  | wellFormed root =>
    refine ⟨root, rfl, ?_⟩
    unfold parseIranDesignations at h
    simp only [fromstring, Bind.bind, Except.bind] at h
    cases hm : mapME parseEntry (findallDesc root "sdnEntry") with
    | error err => rw [hm] at h; cases h
    | ok parsed =>
      rw [hm] at h
      simp only [pure, Except.pure, Except.ok.injEq] at h
      subst h
      rcases List.mem_filterMap.mp hd with ⟨o, ho, hod⟩
      rcases exists_of_mapME_ok parseEntry _ parsed hm o ho with ⟨e, he, hpe⟩
      exact ⟨e, he, by rw [show o = some d from hod] at hpe; exact hpe⟩

theorem iran_programs_not_empty_str : ∀ ip ∈ IRAN_PROGRAMS, ip ≠ "" := by decide

theorem entryMatchesIran_iff (e : XmlElem) :
    entryMatchesIran e ↔ iranProgramsOf e ≠ [] := by
  constructor
  · rintro ⟨pe, hpe, t, ht, ip, hip, hin⟩
    have htne : t ≠ "" := by
      rintro rfl
      rw [strIn_empty_false ip (iran_programs_not_empty_str ip hip)] at hin
      cases hin
    have htn : t ∈ programNamesOf e := by
      apply List.mem_filterMap.mpr
      exact ⟨pe, hpe, by simp [truthy, ht, htne]⟩
    have : t ∈ iranProgramsOf e := by
      apply List.mem_filter.mpr
      refine ⟨htn, ?_⟩
      simp only [List.any_eq_true]
      exact ⟨ip, hip, hin⟩
    intro hnil
    rw [hnil] at this
    cases this
  · intro hne
    rcases List.exists_mem_of_ne_nil _ hne with ⟨p, hp⟩
    rcases List.mem_filter.mp hp with ⟨hpn, hany⟩
    rcases List.mem_filterMap.mp hpn with ⟨pe, hpe, hpt⟩
    have : pe.text = some p := by
      cases htext : pe.text with
      | none => rw [htext] at hpt; cases hpt
      | some t =>
        rw [htext] at hpt
        simp only [truthy] at hpt
        by_cases ht0 : t = ""
        · rw [if_pos ht0] at hpt; cases hpt
        · rw [if_neg ht0] at hpt; cases hpt; rfl
    rcases List.any_eq_true.mp hany with ⟨ip, hip, hin⟩
    exact ⟨pe, hpe, p, this, ip, hip, hin⟩

/-- A retained `id` element yields an allow-listed id type tagged with the
classifier image of that type. -/
theorem cryptoAddrOfId_spec (id_entry : XmlElem) (ca : CryptoAddr)
    (h : cryptoAddrOfId id_entry = some ca) :
    ca.id_type ∈ CRYPTO_ID_TYPES ∧ ca.blockchain = parseBlockchainType ca.id_type := by
  unfold cryptoAddrOfId at h
  split at h
  · split at h
    · split at h
      · rename_i hmem
        cases h
        exact ⟨hmem, rfl⟩
      · cases h
    · cases h
  · cases h

/-- Every extracted crypto address carries an allow-listed id type and the
classifier image of that type. -/
theorem cryptoAddressesOf_spec (e : XmlElem) :
    ∀ ca ∈ cryptoAddressesOf e,
      ca.id_type ∈ CRYPTO_ID_TYPES ∧ ca.blockchain = parseBlockchainType ca.id_type := by
  intro ca hca
  unfold cryptoAddressesOf at hca
  split at hca
  · cases hca
  · rcases List.mem_filterMap.mp hca with ⟨id_entry, hie, hfe⟩
    exact cryptoAddrOfId_spec id_entry ca hfe

/-! ## Claims about the sanctions parser -/

/-- **C4**: the identifier-type-to-blockchain classifier is a pure total
function mapping the four listed identifier-type strings to `bitcoin`,
`ethereum`, `usdt_trc20` and `tron` respectively, and every other input
string to `"unknown"`. -/
theorem c4_blockchain_classifier_table (s : String) :
    parseBlockchainType s =
      if s = "Digital Currency Address - XBT" then "bitcoin"
      else if s = "Digital Currency Address - ETH" then "ethereum"
      else if s = "Digital Currency Address - USDT" then "usdt_trc20"
      else if s = "Digital Currency Address - TRX" then "tron"
      else "unknown" := by
  by_cases h1 : s = "Digital Currency Address - XBT"
  · subst h1; rfl
  by_cases h2 : s = "Digital Currency Address - ETH"
  · subst h2; simp [h1, parseBlockchainType, List.lookup]
  by_cases h3 : s = "Digital Currency Address - USDT"
  · subst h3; simp [h1, h2, parseBlockchainType, List.lookup]
  by_cases h4 : s = "Digital Currency Address - TRX"
  · subst h4; simp [h1, h2, h3, parseBlockchainType, List.lookup]
  have e1 : (s == "Digital Currency Address - XBT") = false := beq_eq_false_iff_ne.mpr h1
  have e2 : (s == "Digital Currency Address - ETH") = false := beq_eq_false_iff_ne.mpr h2
  have e3 : (s == "Digital Currency Address - USDT") = false := beq_eq_false_iff_ne.mpr h3
  have e4 : (s == "Digital Currency Address - TRX") = false := beq_eq_false_iff_ne.mpr h4
  simp [parseBlockchainType, List.lookup, e1, e2, e3, e4, h1, h2, h3, h4]

/-- **C5**: a malformed document raises `ParseError` (no partial result),
and a well-formed document with no entry matching the target program codes
parses to the empty list rather than an error. -/
theorem c5_parse_error_behavior :
    parseIranDesignations SdnDoc.malformed = .error PyErr.parseError ∧
    ∀ root, (∀ e ∈ findallDesc root "sdnEntry", iranProgramsOf e = []) →
      parseIranDesignations (SdnDoc.wellFormed root) = .ok [] := by
  refine ⟨rfl, ?_⟩
  intro root h
  unfold parseIranDesignations
  simp only [fromstring, Bind.bind, Except.bind]
  rw [mapME_eq_map parseEntry (fun _ => none) _
    (fun e he => parseEntry_skip e (h e he))]
  simp [pure, Except.pure, List.filterMap_map]

theorem c5_witness :
    parseIranDesignations (SdnDoc.wellFormed c5Root) = .ok [] :=
  c5_parse_error_behavior.2 c5Root (by decide)

/-- **C6**: an entry is retained iff one of its program-code fields
contains a configured target code as a substring, and every returned
designation's `program` is non-empty and contains a target code as a
substring. -/
theorem c6_retention_iff (root : XmlElem) (ds : List IranDesignation)
    (h : parseIranDesignations (SdnDoc.wellFormed root) = .ok ds) :
    (∀ e ∈ findallDesc root "sdnEntry",
      ((∃ d, parseEntry e = .ok (some d)) ↔ entryMatchesIran e)) ∧
    (∀ d ∈ ds, d.program ≠ "" ∧ ∃ ip ∈ IRAN_PROGRAMS, strIn ip d.program = true) := by
  constructor
  · intro e he
    rw [entryMatchesIran_iff]
    constructor
    · rintro ⟨d, hd⟩
      exact (parseEntry_ok_some e d hd).1
    · intro hne
      unfold parseIranDesignations at h
      simp only [fromstring, Bind.bind, Except.bind] at h
      cases hm : mapME parseEntry (findallDesc root "sdnEntry") with
      | error err => rw [hm] at h; cases h
      | ok parsed =>
        rcases mapME_ok_forall parseEntry _ parsed hm e he with ⟨o, ho⟩
        cases o with
        | none => exact absurd (parseEntry_ok_none e ho) hne
        | some d => exact ⟨d, ho⟩
  · intro d hd
    rcases mem_parse_output _ ds h d hd with ⟨root', hroot, e, he, hpe⟩
    obtain ⟨hne, hprog, -⟩ := parseEntry_ok_some e d hpe
    rcases List.exists_mem_of_ne_nil _ hne with ⟨p, hp⟩
    rcases List.any_eq_true.mp (List.mem_filter.mp hp).2 with ⟨ip, hip, hin⟩
    have hinj : strIn ip d.program = true := by
      rw [hprog]
      exact strIn_pyJoin ", " ip p (iranProgramsOf e) hp hin
    refine ⟨?_, ip, hip, hinj⟩
    intro h0
    rw [h0, strIn_empty_false ip (iran_programs_not_empty_str ip hip)] at hinj
    cases hinj

theorem c6_witness :
    c6Designation.program ≠ "" ∧
    ∃ ip ∈ IRAN_PROGRAMS, strIn ip c6Designation.program = true :=
  (c6_retention_iff c6Root [c6Designation] (by rfl)).2 c6Designation (by simp)

/-- **C7**: `is_irgc` is true iff a matched program code contains `"IRGC"`
or the remarks contain `"IRGC"` case-insensitively, and `is_exchange` is
true iff the assembled name or the remarks contain `"exchange"`
case-insensitively. -/
theorem c7_flag_derivation (e : XmlElem) (d : IranDesignation)
    (h : parseEntry e = .ok (some d)) :
    (d.is_irgc = true ↔
      ((∃ p ∈ iranProgramsOf e, strIn "IRGC" p = true) ∨
       (∃ s, d.remarks = some s ∧ strIn "IRGC" (pyUpper s) = true))) ∧
    (d.is_exchange = true ↔
      (strIn "exchange" (pyLower d.name) = true ∨
       (∃ s, d.remarks = some s ∧ strIn "exchange" (pyLower s) = true))) := by
  obtain ⟨-, -, hname, hrem, -, hirgc, hexch⟩ := parseEntry_ok_some e d h
  constructor
  · rw [hirgc, hrem]
    cases hr : childTextOrEmpty e "remarks" with
    | none => simp [List.any_eq_true]
    | some s => simp [List.any_eq_true]
  · rw [hexch, hrem, hname]
    cases hr : childTextOrEmpty e "remarks" with
    | none => simp
    | some s => simp

theorem c7_witness : irgcD.is_irgc = true ∧ traD.is_irgc = false := by
  constructor
  · exact ((c7_flag_derivation irgcEntry irgcD (by rfl)).1).mpr
      (Or.inl ⟨"IRGC", by decide, by decide⟩)
  · have h2 := (c7_flag_derivation traEntry traD (by rfl)).1
    cases hb : traD.is_irgc with
    | false => rfl
    | true =>
      exfalso
      rcases h2.mp hb with ⟨p, hp, hs⟩ | ⟨s, hs, hc⟩
      · have hp' : p = "IRAN-TRA" := by
          have : iranProgramsOf traEntry = ["IRAN-TRA"] := by decide
          rw [this] at hp
          simpa using hp
        rw [hp'] at hs
        exact absurd hs (by decide)
      · have hs' : s = "trade company" := by
          have : traD.remarks = some "trade company" := rfl
          rw [this] at hs
          exact (Option.some_inj.mp hs).symm
        rw [hs'] at hc
        exact absurd hc (by decide)

/-- **C9**: no crypto address produced by the parse path ever carries the
blockchain tag `"unknown"`: every retained crypto address's tag is one of
`bitcoin`, `ethereum`, `usdt_trc20`, `tron`. -/
theorem c9_no_unknown_blockchain (doc : SdnDoc) (ds : List IranDesignation)
    (h : parseIranDesignations doc = .ok ds) :
    ∀ d ∈ ds, ∀ ca ∈ d.crypto_addresses,
      ca.blockchain ∈ ["bitcoin", "ethereum", "usdt_trc20", "tron"] ∧
      ca.blockchain ≠ "unknown" := by
  intro d hd ca hca
  rcases mem_parse_output doc ds h d hd with ⟨root, -, e, he, hpe⟩
  obtain ⟨-, -, -, -, hcas, -⟩ := parseEntry_ok_some e d hpe
  rw [hcas] at hca
  rcases cryptoAddressesOf_spec e ca hca with ⟨hmem, hbc⟩
  have hm4 : ca.id_type = "Digital Currency Address - XBT" ∨
      ca.id_type = "Digital Currency Address - ETH" ∨
      ca.id_type = "Digital Currency Address - USDT" ∨
      ca.id_type = "Digital Currency Address - TRX" := by
    simpa [CRYPTO_ID_TYPES] using hmem
  rcases hm4 with h4 | h4 | h4 | h4 <;> rw [hbc, h4] <;> exact ⟨by decide, by decide⟩

theorem c9_witness :
    ("bitcoin" : String) ∈ ["bitcoin", "ethereum", "usdt_trc20", "tron"] ∧
    ("bitcoin" : String) ≠ "unknown" := by
  have h := c9_no_unknown_blockchain (SdnDoc.wellFormed c9Root) [c9Designation]
    (by rfl) c9Designation (by simp)
    { address := some "bc1qexample", blockchain := "bitcoin",
      id_type := "Digital Currency Address - XBT" } (by simp [c9Designation])
  exact h

theorem dictLookup_map_ne {α : Type} (t : List (String × α)) (k k' : String)
    (v : α) (hne : k' ≠ k) :
    dictLookup (t.map (fun p => if p.1 = k then (k, v) else p)) k' =
      dictLookup t k' := by
  induction t with
  | nil => rfl
  | cons q t ih =>
    by_cases hq : q.1 = k
    · simp only [List.map_cons, if_pos hq, dictLookup]
      rw [if_neg (fun hh => hne hh.symm), if_neg (fun hh => hne (hq ▸ hh).symm)]
      exact ih
    · simp only [List.map_cons, if_neg hq, dictLookup]
      by_cases hq' : q.1 = k' <;> simp [hq', ih]

theorem dictLookup_map_self {α : Type} (t : List (String × α)) (k : String)
    (v : α) (h : (t.any fun p => p.1 = k) = true) :
    dictLookup (t.map (fun p => if p.1 = k then (k, v) else p)) k = some v := by
  induction t with
  | nil => simp at h
  | cons q t ih =>
    by_cases hq : q.1 = k
    · simp [List.map_cons, if_pos hq, dictLookup]
    · simp only [List.any_cons, Bool.or_eq_true, decide_eq_true_eq] at h
      rcases h with h | h
    
      · exact absurd h hq
      · simp only [List.map_cons, if_neg hq, dictLookup, if_neg hq]
        exact ih h

theorem dictLookup_append_single_ne {α : Type} (t : List (String × α))
    (k : String) (v : α) (k' : String) (hne : k' ≠ k) :
    dictLookup (t ++ [(k, v)]) k' = dictLookup t k' := by
  induction t with
  | nil =>
    simp only [List.nil_append, dictLookup]
    rw [if_neg (fun hh => hne hh.symm)]
  | cons q t ih =>
    simp only [List.cons_append, dictLookup]
    by_cases hq : q.1 = k' <;> simp [hq, ih]

theorem dictLookup_append_single_self {α : Type} (t : List (String × α))
    (k : String) (v : α) (h : (t.any fun p => p.1 = k) = false) :
    dictLookup (t ++ [(k, v)]) k = some v := by
  induction t with
  | nil => simp [dictLookup]
  | cons q t ih =>
    simp only [List.any_cons, Bool.or_eq_false_iff, decide_eq_false_iff_not] at h
    simp only [List.cons_append, dictLookup, if_neg h.1]
    exact ih h.2

theorem dictInsert_lookup_self {α : Type} (d : List (String × α)) (k : String)
    (v : α) : dictLookup (dictInsert d k v) k = some v := by
  unfold dictInsert
  split
  · rename_i hany
    exact dictLookup_map_self d k v hany
  · rename_i hany
    exact dictLookup_append_single_self d k v (Bool.eq_false_iff.mpr hany)

theorem dictInsert_lookup_ne {α : Type} (d : List (String × α)) (k : String)
    (v : α) (k' : String) (hne : k' ≠ k) :
    dictLookup (dictInsert d k v) k' = dictLookup d k' := by
  unfold dictInsert
  split
  · exact dictLookup_map_ne d k k' v hne
  · exact dictLookup_append_single_ne d k v k' hne

theorem dictInsert_keys_toFinset {α : Type} (d : List (String × α)) (k : String)
    (v : α) :
    ((dictInsert d k v).map Prod.fst).toFinset =
      insert k (d.map Prod.fst).toFinset := by
  unfold dictInsert
  split
  · rename_i hany
    have hkeys : ((d.map fun p => if p.1 = k then (k, v) else p).map Prod.fst) =
        d.map Prod.fst := by
      rw [List.map_map]
      apply List.map_congr_left
      intro p _
      by_cases hp : p.1 = k <;> simp [hp]
    rw [hkeys]
    have hk : k ∈ (d.map Prod.fst).toFinset := by
      rcases List.any_eq_true.mp hany with ⟨p, hp, hpk⟩
      simp only [List.mem_toFinset, List.mem_map]
      exact ⟨p, hp, by simpa using hpk⟩
    exact (Finset.insert_eq_self.mpr hk).symm
  · rw [List.map_append]
    ext x
    simp [or_comm]

/-- Lookup in the dict built by the second loop of `monitor_all`: the key's
value is that of the last task with that key. -/
theorem dictLookup_foldl {β γ : Type} (g : String × β → γ)
    (ts : List (String × β)) (acc : List (String × γ)) (k : String) :
    dictLookup (ts.foldl (fun a p => dictInsert a p.1 (g p)) acc) k =
      (match (ts.filter fun p => p.1 = k).getLast? with
       | some p => some (g p)
       | none => dictLookup acc k) := by
  induction ts generalizing acc with
  | nil => simp
  | cons p ts ih =>
    rw [List.foldl_cons, ih]
    by_cases hp : p.1 = k
    · rw [List.filter_cons_of_pos (by simpa using hp)]
      cases hfil : (ts.filter fun q => q.1 = k).getLast? with
      | some q =>
        have : (p :: ts.filter fun q => q.1 = k).getLast? = some q := by
          cases hl : ts.filter fun q => q.1 = k with
          | nil => rw [hl] at hfil; cases hfil
          | cons r rs =>
            rw [hl] at hfil
            rw [List.getLast?_cons_cons]
            exact hfil
        rw [this]
      | none =>
        have hnil : (ts.filter fun q => q.1 = k) = [] := by
          cases hl : ts.filter fun q => q.1 = k with
          | nil => rfl
          | cons r rs =>
            rw [hl] at hfil
            simp [List.getLast?] at hfil
        rw [hnil]
        simp only [List.getLast?_singleton]
        rw [← hp]
        exact dictInsert_lookup_self acc p.1 (g p)
    · rw [List.filter_cons_of_neg (by simpa using hp)]
      cases hfil : (ts.filter fun q => q.1 = k).getLast? with
      | some q => rfl
      | none => exact dictInsert_lookup_ne acc p.1 (g p) k (fun hh => hp hh.symm)

/-- Key set of the dict built by the second loop of `monitor_all`. -/
theorem dictKeys_foldl {β γ : Type} (g : String × β → γ)
    (ts : List (String × β)) (acc : List (String × γ)) :
    ((ts.foldl (fun a p => dictInsert a p.1 (g p)) acc).map Prod.fst).toFinset =
      (acc.map Prod.fst).toFinset ∪ (ts.map Prod.fst).toFinset := by
  induction ts generalizing acc with
  | nil => simp
  | cons p ts ih =>
    rw [List.foldl_cons, ih, dictInsert_keys_toFinset]
    ext x
    simp only [Finset.mem_union, Finset.mem_insert, List.map_cons,
      List.toFinset_cons]
    tauto

/-- A valid spec's task pair. -/
theorem taskOf_valid (s : AddrSpec) (b : BlockchainType)
    (hb : BlockchainType.ofString s.blockchain = .ok b) :
    taskOf s = .ok (s.address, tagOf s) ∧ tagOf s = b := by
  have ht : tagOf s = b := by simp [tagOf, hb, Except.toOption]
  refine ⟨?_, ht⟩
  simp [taskOf, hb, Bind.bind, Except.bind, pure, Except.pure, ht]

/-- Function `monitorCaughtStr` agrees with `monitorCaught` on valid specs. -/
theorem monitorCaughtStr_valid (env : Env) (s : AddrSpec)
    (hb : ∃ b, BlockchainType.ofString s.blockchain = .ok b) :
    monitorCaughtStr env s = monitorCaught env s.address (tagOf s) := by
  rcases hb with ⟨b, hb⟩
  rw [monitorCaughtStr, hb, (taskOf_valid s b hb).2]

/-- Insertion `dictInsert` adds at most one entry. -/
theorem dictInsert_length {α : Type} (d : List (String × α)) (k : String)
    (v : α) : (dictInsert d k v).length ≤ d.length + 1 := by
  unfold dictInsert
  split <;> simp

theorem foldl_dictInsert_length {β γ : Type} (g : String × β → γ)
    (ts : List (String × β)) (acc : List (String × γ)) :
    (ts.foldl (fun a p => dictInsert a p.1 (g p)) acc).length ≤
      acc.length + ts.length := by
  induction ts generalizing acc with
  | nil => simp
  | cons p ts ih =>
    rw [List.foldl_cons]
    calc (ts.foldl (fun a p => dictInsert a p.1 (g p))
            (dictInsert acc p.1 (g p))).length
        ≤ (dictInsert acc p.1 (g p)).length + ts.length := ih _
      _ ≤ (acc.length + 1) + ts.length :=
          Nat.add_le_add_right (dictInsert_length acc p.1 (g p)) _
      _ = acc.length + (p :: ts).length := by simp; omega

/-- Full characterization of a successful `monitor_all` run: it succeeds
when every blockchain string converts, the key set of the result is the
set of distinct addresses, each key holds the (caught) result of the
*last* spec with that address, and the dict has at most one entry per
spec. -/
theorem monitorAll_char (env : Env) (specs : List AddrSpec)
    (hv : ∀ s ∈ specs, ∃ b, BlockchainType.ofString s.blockchain = .ok b) :
    ∃ res, IranMonitor.monitorAll env specs = .ok res ∧
      (res.map Prod.fst).toFinset = (specs.map (fun s => s.address)).toFinset ∧
      (∀ a, dictLookup res a =
        ((specs.filter (fun s => s.address = a)).getLast?).map
          (fun s => monitorCaughtStr env s)) ∧
      res.length ≤ specs.length := by
  have htasks : mapME taskOf specs = .ok (specs.map fun s => (s.address, tagOf s)) :=
    mapME_eq_map taskOf (fun s => (s.address, tagOf s)) specs
      (fun s hs => (taskOf_valid s (hv s hs).choose (hv s hs).choose_spec).1)
  have hstep : recordStep env = fun acc (ab : String × BlockchainType) =>
      dictInsert acc ab.1 (monitorCaught env ab.1 ab.2) := by
    funext acc ab
    rw [recordStep, monitorCaught]
    cases IranMonitor.monitorAddress env ab.1 ab.2 <;> rfl
  refine ⟨(specs.map fun s => (s.address, tagOf s)).foldl (recordStep env) [],
    ?_, ?_, ?_, ?_⟩
  · rw [IranMonitor.monitorAll, htasks]
    rfl
  · rw [hstep, dictKeys_foldl (fun ab => monitorCaught env ab.1 ab.2)]
    rw [List.map_map]
    simp only [List.map_nil, List.toFinset_nil, Finset.empty_union]
    rfl
  · intro a
    rw [hstep, dictLookup_foldl (fun ab => monitorCaught env ab.1 ab.2)]
    rw [List.filter_map]
    have hpred : ((fun p : String × BlockchainType => decide (p.1 = a)) ∘
        (fun s : AddrSpec => (s.address, tagOf s))) =
        fun s : AddrSpec => decide (s.address = a) := rfl
    rw [hpred, List.getLast?_map]
    cases hlast : (specs.filter fun s => s.address = a).getLast? with
    | none => rfl
    | some s =>
      have hmem : s ∈ specs :=
        List.mem_of_mem_filter (List.mem_of_mem_getLast? hlast)
      simp only [Option.map_some']
      rw [monitorCaughtStr_valid env s (hv s hmem)]
  · rw [hstep]
    calc ((specs.map fun s => (s.address, tagOf s)).foldl
            (fun a p => dictInsert a p.1 (monitorCaught env p.1 p.2)) []).length
        ≤ ([] : List (String × List Transaction)).length +
            (specs.map fun s => (s.address, tagOf s)).length :=
          foldl_dictInsert_length _ _ _
      _ = specs.length := by simp

/-- Call `monitor_all` only succeeds when every spec's blockchain string is a
valid tag. -/
theorem monitorAll_ok_valid (env : Env) (specs : List AddrSpec)
    (res : List (String × List Transaction))
    (h : IranMonitor.monitorAll env specs = .ok res) :
    ∀ s ∈ specs, ∃ b, BlockchainType.ofString s.blockchain = .ok b := by
  rw [IranMonitor.monitorAll] at h
  cases hm : mapME taskOf specs with
  | error e =>
    rw [hm] at h
    cases h
  | ok tasks =>
    intro s hs
    rcases mapME_ok_forall taskOf specs tasks hm s hs with ⟨p, hp⟩
    rw [taskOf] at hp
    cases hb : BlockchainType.ofString s.blockchain with
    | error e =>
      rw [hb] at hp
      simp [Bind.bind, Except.bind] at hp
    | ok b => exact ⟨b, rfl⟩

/-- **C1** (counterexample to the claim as stated): a batch containing a
spec with the invalid blockchain-tag string `"dogecoin"` makes
`monitor_all` itself raise `ValueError` from the first loop — no mapping
is returned and the other spec's result is lost, contrary to the claim
that an invalid blockchain-tag string in one spec is caught and recorded
as an empty sequence for that key. -/
theorem c1_counterexample :
    IranMonitor.monitorAll env0
      [⟨"0xabc", "ethereum"⟩, ⟨"D6address", "dogecoin"⟩] =
      .error (.valueError "dogecoin") := by
  rfl

/-- **C1** (amended): for a batch in which every spec's blockchain string
is one of the five valid tags, `monitor_all` does not raise and returns a
mapping with a key for every spec's address; a spec whose awaited
monitoring raises is recorded as the empty sequence under its key, and
every other spec is still processed and recorded (for a duplicated
address, the last spec with that address).  An invalid blockchain-tag
string, by contrast, raises out of `monitor_all` itself
(`c1_counterexample`). -/
theorem c1_batch_isolation (env : Env) (specs : List AddrSpec)
    (hv : ∀ s ∈ specs, ∃ b, BlockchainType.ofString s.blockchain = .ok b) :
    ∃ res, IranMonitor.monitorAll env specs = .ok res ∧
      (∀ s ∈ specs, s.address ∈ res.map Prod.fst) ∧
      (∀ s ∈ specs,
        (specs.filter (fun t => t.address = s.address)).getLast? = some s →
        dictLookup res s.address = some (monitorCaughtStr env s)) ∧
      (∀ s ∈ specs, ∀ b, BlockchainType.ofString s.blockchain = .ok b →
        ∀ e, IranMonitor.monitorAddress env s.address b = .error e →
        monitorCaughtStr env s = []) := by
  rcases monitorAll_char env specs hv with ⟨res, hok, hkeys, hlook, -⟩
  refine ⟨res, hok, ?_, ?_, ?_⟩
  · intro s hs
    have hmem : s.address ∈ (res.map Prod.fst).toFinset := by
      rw [hkeys]
      simp only [List.mem_toFinset, List.mem_map]
      exact ⟨s, hs, rfl⟩
    simpa using hmem
  · intro s _ hlast
    rw [hlook s.address, hlast]
    rfl
  · intro s _ b hb e herr
    simp [monitorCaughtStr, hb, monitorCaught, herr]

theorem c1_witness :
    ∃ res, IranMonitor.monitorAll env0 c1Specs = .ok res ∧
      (∀ s ∈ c1Specs, s.address ∈ res.map Prod.fst) ∧
      (∀ s ∈ c1Specs,
        (c1Specs.filter (fun t => t.address = s.address)).getLast? = some s →
        dictLookup res s.address = some (monitorCaughtStr env0 s)) ∧
      (∀ s ∈ c1Specs, ∀ b, BlockchainType.ofString s.blockchain = .ok b →
        ∀ e, IranMonitor.monitorAddress env0 s.address b = .error e →
        monitorCaughtStr env0 s = []) :=
  c1_batch_isolation env0 c1Specs (by
    intro s hs
    simp only [c1Specs, List.mem_cons, List.not_mem_nil, or_false] at hs
    rcases hs with rfl | rfl
    · exact ⟨.ethereum, rfl⟩
    · exact ⟨.bitcoin, rfl⟩)

/-- **C10**: the key set of a successful `monitor_all` result is exactly
the set of distinct input addresses; a duplicated address holds the result
of the *last* spec with that address (later overwrites earlier), so the
mapping can have fewer entries than there are specs. -/
theorem c10_key_set_overwrite (env : Env) (specs : List AddrSpec)
    (res : List (String × List Transaction))
    (h : IranMonitor.monitorAll env specs = .ok res) :
    (res.map Prod.fst).toFinset = (specs.map (fun s => s.address)).toFinset ∧
    (∀ a, dictLookup res a =
      ((specs.filter (fun s => s.address = a)).getLast?).map
        (fun s => monitorCaughtStr env s)) ∧
    res.length ≤ specs.length := by
  have hv := monitorAll_ok_valid env specs res h
  rcases monitorAll_char env specs hv with ⟨res', hok, hkeys, hlook, hlen⟩
  have hres : res = res' := by
    rw [h] at hok
    exact (Except.ok.inj hok)
  subst hres
  exact ⟨hkeys, hlook, hlen⟩

theorem c10_witness :
    (((IranMonitor.monitorAll env0 c10Specs).toOption.getD []).map
        Prod.fst).toFinset =
      (c10Specs.map (fun s => s.address)).toFinset ∧
    ((IranMonitor.monitorAll env0 c10Specs).toOption.getD []).length ≤
      c10Specs.length := by
  have h : IranMonitor.monitorAll env0 c10Specs =
      .ok [("0xabc", [])] := by rfl
  have hc := c10_key_set_overwrite env0 c10Specs [("0xabc", [])] h
  rw [h]
  exact ⟨hc.1, hc.2.2⟩

/-- **C2** (counterexample to the claim as stated): a transport-level
failure is *not* caught inside the adapter — it propagates out of
`get_transactions` and past `monitor_address` to its caller.  (It is
absorbed only later, by `monitor_all`'s per-task `try/except`.) -/
theorem c2_counterexample :
    EtherscanMonitor.getTransactions env0 "0xabc" = .error .netError ∧
    IranMonitor.monitorAddress env0 "0xabc" .ethereum = .error .netError :=
  ⟨rfl, rfl⟩

/-- **C2** (amended): a non-success *payload* is converted to an empty
result inside each adapter (an Etherscan body whose `status` is not the
string `"1"`, a TronGrid body without a `data` array), but a transport
failure from `client.get` propagates unchanged out of all four fetch
operations to the caller of `monitor_address`. -/
theorem c2_adapter_error_handling (env : Env) (addr : String) :
    (∀ fields, env.etherscanTxlist addr = .ok (.obj fields) →
      (((fields.lookup "status").getD Json.null).eqStr "1") = false →
      EtherscanMonitor.getTransactions env addr = .ok []) ∧
    (∀ fields, env.etherscanTokentx addr = .ok (.obj fields) →
      (((fields.lookup "status").getD Json.null).eqStr "1") = false →
      EtherscanMonitor.getTokenTransfers env addr = .ok []) ∧
    (∀ fields, env.trongridTx addr = .ok (.obj fields) →
      fields.lookup "data" = none →
      TrongridMonitor.getTransactions env addr = .ok []) ∧
    (∀ fields, env.trongridTrc20 addr = .ok (.obj fields) →
      fields.lookup "data" = none →
      TrongridMonitor.getTrc20Transfers env addr = .ok []) ∧
    (∀ e, env.etherscanTxlist addr = .error e →
      EtherscanMonitor.getTransactions env addr = .error e) ∧
    (∀ e, env.etherscanTokentx addr = .error e →
      EtherscanMonitor.getTokenTransfers env addr = .error e) ∧
    (∀ e, env.trongridTx addr = .error e →
      TrongridMonitor.getTransactions env addr = .error e) ∧
    (∀ e, env.trongridTrc20 addr = .error e →
      TrongridMonitor.getTrc20Transfers env addr = .error e) ∧
    (∀ e, env.blockchairAddress addr = .error e →
      BlockchairMonitor.getAddressInfo env addr = .error e) := by
  refine ⟨?_, ?_, ?_, ?_, ?_, ?_, ?_, ?_, ?_⟩
  · intro fields henv hstatus
    simp [EtherscanMonitor.getTransactions, henv, Json.dictGet, hstatus,
      Bind.bind, Except.bind, pure, Except.pure]
  · intro fields henv hstatus
    simp [EtherscanMonitor.getTokenTransfers, henv, Json.dictGet, hstatus,
      Bind.bind, Except.bind, pure, Except.pure]
  · intro fields henv hdata
    simp [TrongridMonitor.getTransactions, henv, Json.dictGet, hdata,
      Json.asList, mapME, Bind.bind, Except.bind, pure, Except.pure]
  · intro fields henv hdata
    simp [TrongridMonitor.getTrc20Transfers, henv, Json.dictGet, hdata,
      Json.asList, mapME, Bind.bind, Except.bind, pure, Except.pure]
  · intro e henv
    simp [EtherscanMonitor.getTransactions, henv, Bind.bind, Except.bind]
  · intro e henv
    simp [EtherscanMonitor.getTokenTransfers, henv, Bind.bind, Except.bind]
  · intro e henv
    simp [TrongridMonitor.getTransactions, henv, Bind.bind, Except.bind]
  · intro e henv
    simp [TrongridMonitor.getTrc20Transfers, henv, Bind.bind, Except.bind]
  · intro e henv
    simp [BlockchairMonitor.getAddressInfo, henv, Bind.bind, Except.bind]

theorem c2_witness :
    EtherscanMonitor.getTransactions envNonSuccess "0xA" = .ok [] ∧
    TrongridMonitor.getTransactions envNonSuccess "TAddr" = .ok [] :=
  ⟨(c2_adapter_error_handling envNonSuccess "0xA").1
      [("status", .str "0"), ("message", .str "NOTOK")] rfl rfl,
   (c2_adapter_error_handling envNonSuccess "TAddr").2.2.1
      [("statusCode", .num 404)] rfl rfl⟩

/-! ## The default decimal context: rounding lemmas -/

theorem roundHalfEven_intCast (n : ℤ) : roundHalfEven ((n : ℚ)) = n := by
  unfold roundHalfEven
  rw [Int.floor_intCast]
  norm_num

/-- Pin the value of `Int.log` by bracketing between powers of ten. -/
theorem int_log_eval_nat (q : ℚ) (L : ℕ) (h1 : (10 : ℚ) ^ L ≤ q)
    (h2 : q < (10 : ℚ) ^ (L + 1)) (hq : 0 < q) : Int.log 10 q = L := by
  have h1z : (10 : ℚ) ^ (L : ℤ) ≤ q := by rwa [zpow_natCast]
  have h2z : q < (10 : ℚ) ^ ((L : ℤ) + 1) := by
    rw [show ((L : ℤ) + 1) = ((L + 1 : ℕ) : ℤ) from by push_cast; ring,
      zpow_natCast]
    exact h2
  have hle : (L : ℤ) ≤ Int.log 10 q := by
    have h : Int.log 10 ((10 : ℚ) ^ (L : ℤ)) ≤ Int.log 10 q :=
      Int.log_mono_right (zpow_pos (by norm_num) (L : ℤ)) h1z
    have hzl : Int.log 10 ((10 : ℚ) ^ (L : ℤ)) = (L : ℤ) :=
      Int.log_zpow (by norm_num) (L : ℤ)
    rw [hzl] at h
    exact h
  have hlt : Int.log 10 q < (L : ℤ) + 1 :=
    (Int.lt_zpow_iff_log_lt (by norm_num) hq).mp h2z
  omega

/-- Evaluate `decRound28` from the bracketed log and the rounded
coefficient. -/
theorem decRound28_eval (q : ℚ) (L c : ℤ) (hq0 : q ≠ 0)
    (hlog : Int.log 10 |q| = L)
    (hc : roundHalfEven (q * (10 : ℚ) ^ (27 - L)) = c) :
    decRound28 q = (c : ℚ) * (10 : ℚ) ^ (L - 27) := by
  unfold decRound28
  rw [if_neg hq0, hlog, hc]

/-- A value needing at most 28 significant digits is left unchanged by the
default-context rounding. -/
theorem decRound28_exact (m e : ℤ) (hm : |m| < 10 ^ 28) :
    decRound28 ((m : ℚ) * (10 : ℚ) ^ e) = (m : ℚ) * (10 : ℚ) ^ e := by
  by_cases hm0 : m = 0
  · simp [decRound28, hm0]
  have hmq : ((m : ℚ)) ≠ 0 := Int.cast_ne_zero.mpr hm0
  have hq0 : (m : ℚ) * (10 : ℚ) ^ e ≠ 0 :=
    mul_ne_zero hmq (zpow_ne_zero e (by norm_num))
  have hpow : (0 : ℚ) < (10 : ℚ) ^ e := zpow_pos (by norm_num) e
  have hmlt : |(m : ℚ)| < (10 : ℚ) ^ (28 : ℕ) := by
    rw [← Int.cast_abs]
    exact_mod_cast hm
  have hlt : |(m : ℚ) * (10 : ℚ) ^ e| < (10 : ℚ) ^ (e + 28) := by
    rw [abs_mul, abs_of_pos hpow]
    calc |(m : ℚ)| * (10 : ℚ) ^ e < (10 : ℚ) ^ (28 : ℕ) * (10 : ℚ) ^ e :=
          mul_lt_mul_of_pos_right hmlt hpow
      _ = (10 : ℚ) ^ (e + 28) := by
          rw [← zpow_natCast (10 : ℚ) 28,
            ← zpow_add₀ (by norm_num : (10 : ℚ) ≠ 0)]
          norm_num [add_comm]
  obtain ⟨L, hL⟩ : ∃ L, Int.log 10 |(m : ℚ) * (10 : ℚ) ^ e| = L := ⟨_, rfl⟩
  have hlog : L ≤ e + 27 := by
    have h : Int.log 10 |(m : ℚ) * (10 : ℚ) ^ e| < e + 28 :=
      (Int.lt_zpow_iff_log_lt (by norm_num) (abs_pos.mpr hq0)).mp hlt
    omega
  obtain ⟨k, hek⟩ : ∃ k : ℕ, (k : ℤ) = e + 27 - L :=
    ⟨(e + 27 - L).toNat, Int.toNat_of_nonneg (by omega)⟩
  have hc : (m : ℚ) * (10 : ℚ) ^ e * (10 : ℚ) ^ (27 - L) =
      ((m * 10 ^ k : ℤ) : ℚ) := by
    push_cast
    rw [mul_assoc, ← zpow_add₀ (by norm_num : (10 : ℚ) ≠ 0),
      ← zpow_natCast (10 : ℚ) k]
    rw [show e + (27 - L) = (k : ℤ) from by omega]
  rw [decRound28_eval ((m : ℚ) * (10 : ℚ) ^ e) L (m * 10 ^ k) hq0 hL
    (by rw [hc]; exact roundHalfEven_intCast (m * 10 ^ k))]
  push_cast
  rw [mul_assoc, ← zpow_natCast (10 : ℚ) k,
    ← zpow_add₀ (by norm_num : (10 : ℚ) ≠ 0)]
  rw [show (k : ℤ) + (L - 27) = e from by omega]

/-- Division of an at-most-28-digit integer by a power of ten is exact. -/
theorem decDiv_int_pow (A : ℤ) (hA : |A| < 10 ^ 28) (d : ℕ) :
    decDiv (A : ℚ) (10 ^ d) = (A : ℚ) / 10 ^ d := by
  unfold decDiv
  have h : (A : ℚ) / 10 ^ d = (A : ℚ) * (10 : ℚ) ^ (-(d : ℤ)) := by
    rw [zpow_neg, zpow_natCast, div_eq_mul_inv]
  rw [h, decRound28_exact A (-(d : ℤ)) hA]

/-! ## Inversion of the per-element parsers (unit conversion) -/

theorem parseEthTx_inv (tx : Json) (t : Transaction)
    (h : parseEthTx tx = .ok t) :
    ∃ v q, tx.getItem "value" = .ok v ∧ pyDecimal v = .ok q ∧
      t.value = decDiv q (10 ^ 18) := by
  simp only [parseEthTx, Bind.bind, Except.bind, pure, Except.pure] at h
  repeat (split at h; try cases h)
  all_goals try cases h
  all_goals exact ⟨_, _, by assumption, by assumption, rfl⟩

theorem parseEthTokenTx_inv (tx : Json) (t : Transaction)
    (h : parseEthTokenTx tx = .ok t) :
    ∃ dj d v q,
      tx.dictGet "tokenDecimal" (Json.num 18) = .ok dj ∧ pyInt dj = .ok d ∧
      tx.getItem "value" = .ok v ∧ pyDecimal v = .ok q ∧
      t.value = decDiv q ((10 : ℚ) ^ d) := by
  simp only [parseEthTokenTx, Bind.bind, Except.bind, pure, Except.pure] at h
  repeat (split at h; try cases h)
  all_goals try cases h
  all_goals exact ⟨_, _, _, _, by assumption, by assumption, by assumption,
    by assumption, rfl⟩

/-- When the response omits `tokenDecimal`, the exponent defaults to 18. -/
theorem parseEthTokenTx_default (fields : List (String × Json))
    (t : Transaction) (h : parseEthTokenTx (Json.obj fields) = .ok t)
    (hnone : fields.lookup "tokenDecimal" = none) :
    ∃ v q, (Json.obj fields).getItem "value" = .ok v ∧ pyDecimal v = .ok q ∧
      t.value = decDiv q ((10 : ℚ) ^ (18 : ℤ)) := by
  rcases parseEthTokenTx_inv _ t h with ⟨dj, d, v, q, hdj, hd, hv, hq, hval⟩
  simp only [Json.dictGet, hnone, Option.getD_none, Except.ok.injEq] at hdj
  subst hdj
  simp only [pyInt, Except.ok.injEq] at hd
  refine ⟨v, q, hv, hq, ?_⟩
  rw [hval, ← hd]

theorem parseTronTx_inv (tx : Json) (t : Transaction)
    (h : parseTronTx tx = .ok (some t)) :
    ∃ raw cs contract p vd v q,
      tx.dictGet "raw_data" (Json.obj []) = .ok raw ∧
      raw.dictGet "contract" (Json.arr [Json.obj []]) = .ok cs ∧
      cs.item0 = .ok contract ∧
      contract.dictGet "parameter" (Json.obj []) = .ok p ∧
      p.dictGet "value" (Json.obj []) = .ok vd ∧
      vd.dictGet "amount" (Json.num 0) = .ok v ∧
      pyDecimal v = .ok q ∧
      t.value = decDiv q (10 ^ 6) := by
  simp only [parseTronTx, Bind.bind, Except.bind, pure, Except.pure] at h
  repeat (split at h; try cases h)
  all_goals try cases h
  all_goals exact ⟨_, _, _, _, _, _, _, by assumption, by assumption,
    by assumption, by assumption, by assumption, by assumption,
    by assumption, rfl⟩

theorem parseTrc20Tx_inv (tx : Json) (t : Transaction)
    (h : parseTrc20Tx tx = .ok t) :
    ∃ ti dj d v q,
      tx.dictGet "token_info" (Json.obj []) = .ok ti ∧
      ti.dictGet "decimals" (Json.num 6) = .ok dj ∧
      pyInt dj = .ok d ∧
      tx.dictGet "value" (Json.num 0) = .ok v ∧
      pyDecimal v = .ok q ∧
      t.value = decDiv q ((10 : ℚ) ^ d) := by
  simp only [parseTrc20Tx, Bind.bind, Except.bind, pure, Except.pure] at h
  repeat (split at h; try cases h)
  all_goals try cases h
  all_goals exact ⟨_, _, _, _, _, by assumption, by assumption, by assumption,
    by assumption, by assumption, rfl⟩

/-- When `token_info` carries no `decimals`, the exponent defaults to 6. -/
theorem parseTrc20Tx_default (tx : Json) (tif : List (String × Json))
    (t : Transaction) (h : parseTrc20Tx tx = .ok t)
    (hti : tx.dictGet "token_info" (Json.obj []) = .ok (Json.obj tif))
    (hnone : tif.lookup "decimals" = none) :
    ∃ v q, tx.dictGet "value" (Json.num 0) = .ok v ∧ pyDecimal v = .ok q ∧
      t.value = decDiv q ((10 : ℚ) ^ (6 : ℤ)) := by
  rcases parseTrc20Tx_inv tx t h with ⟨ti, dj, d, v, q, hti', hdj, hd, hv, hq, hval⟩
  rw [hti] at hti'
  cases hti'
  simp only [Json.dictGet, hnone, Option.getD_none, Except.ok.injEq] at hdj
  subst hdj
  simp only [pyInt, Except.ok.injEq] at hd
  refine ⟨v, q, hv, hq, ?_⟩
  rw [hval, ← hd]

theorem getAddressInfo_inv (env : Env) (addr : String) (info : AddressInfo)
    (h : BlockchairMonitor.getAddressInfo env addr = .ok info) :
    ∃ data d1 d2 ad bj b cj rj r sj s,
      env.blockchairAddress addr = .ok data ∧
      data.dictGet "data" (Json.obj []) = .ok d1 ∧
      d1.dictGet addr (Json.obj []) = .ok d2 ∧
      d2.dictGet "address" (Json.obj []) = .ok ad ∧
      ad.dictGet "balance" (Json.num 0) = .ok bj ∧ pyDecimal bj = .ok b ∧
      ad.dictGet "transaction_count" (Json.num 0) = .ok cj ∧
      ad.dictGet "received" (Json.num 0) = .ok rj ∧ pyDecimal rj = .ok r ∧
      ad.dictGet "spent" (Json.num 0) = .ok sj ∧ pyDecimal sj = .ok s ∧
      info = { balance := decDiv b (10 ^ 8), tx_count := cj,
               received := decDiv r (10 ^ 8), spent := decDiv s (10 ^ 8) } := by
  simp only [BlockchairMonitor.getAddressInfo, Bind.bind, Except.bind, pure,
    Except.pure] at h
  repeat (split at h; try cases h)
  all_goals try cases h
  all_goals exact ⟨_, _, _, _, _, _, _, _, _, _, _, by assumption,
    by assumption, by assumption, by assumption, by assumption, by assumption,
    by assumption, by assumption, by assumption, by assumption, by assumption,
    rfl⟩

/-- **C3** (counterexample to the claim as stated): `Decimal` division is
performed under the default 28-significant-digit context, so amount
`10^28 + 1` (29 significant digits) with `d = 18` is rounded: the adapter
yields `10^10`, not exactly `(10^28 + 1) / 10^18`. -/
theorem c3_counterexample :
    ∃ t, parseEthTx ethOverflowTx = .ok t ∧
      t.value = (10 ^ 10 : ℚ) ∧
      t.value ≠ ((10 ^ 28 + 1 : ℚ)) / 10 ^ 18 := by
  have hcast : (((10 ^ 28 + 1 : ℤ)) : ℚ) / (10 : ℚ) ^ (18 : ℕ) =
      ((10 : ℚ) ^ 28 + 1) / 10 ^ 18 := by
    push_cast
    ring
  have hqpos : (0 : ℚ) < ((10 : ℚ) ^ 28 + 1) / 10 ^ 18 := by positivity
  have hlog : Int.log 10 |((10 : ℚ) ^ 28 + 1) / 10 ^ 18| = ((10 : ℕ) : ℤ) := by
    rw [abs_of_pos hqpos]
    have := int_log_eval_nat (((10 : ℚ) ^ 28 + 1) / 10 ^ 18) 10 ?_ ?_ hqpos
    · exact this
    · rw [le_div_iff₀ (by positivity)]
      norm_num
    · rw [div_lt_iff₀ (by positivity)]
      norm_num
  have hcoef : (((10 : ℚ) ^ 28 + 1) / 10 ^ 18) *
      (10 : ℚ) ^ ((27 : ℤ) - ((10 : ℕ) : ℤ)) = (10 : ℚ) ^ 27 + 1 / 10 := by
    rw [show ((27 : ℤ) - ((10 : ℕ) : ℤ)) = ((17 : ℕ) : ℤ) from by norm_num,
      zpow_natCast]
    field_simp
    ring
  have hround : roundHalfEven ((10 : ℚ) ^ 27 + 1 / 10) = 10 ^ 27 := by
    unfold roundHalfEven
    have hfl : ⌊(10 : ℚ) ^ 27 + 1 / 10⌋ = 10 ^ 27 := by
      rw [Int.floor_eq_iff]
      constructor
      · push_cast
        norm_num
      · push_cast
        norm_num
    rw [hfl, if_pos]
    push_cast
    norm_num
  have hval : decDiv (((10 ^ 28 + 1 : ℤ)) : ℚ) (10 ^ 18) = (10 : ℚ) ^ 10 := by
    unfold decDiv
    rw [hcast, decRound28_eval _ ((10 : ℕ) : ℤ) (10 ^ 27) (ne_of_gt hqpos)
      hlog (by rw [hcoef]; exact hround)]
    rw [show (((10 : ℕ) : ℤ) - 27) = -((17 : ℕ) : ℤ) from by norm_num,
      zpow_neg, zpow_natCast]
    push_cast
    rw [inv_eq_one_div, mul_one_div,
      div_eq_iff (by norm_num : ((10 : ℚ) ^ (17 : ℕ)) ≠ 0)]
    norm_num
  refine ⟨_, rfl, hval, ?_⟩
  rw [hval]
  intro hcon
  rw [eq_div_iff (by norm_num : ((10 : ℚ) ^ 18) ≠ 0)] at hcon
  norm_num at hcon

/-- **C3** (amended): every adapter converts the integer source amount `A`
by `Decimal(A) / Decimal(10^d)` under the default decimal context — the
exact quotient `A / 10^d` rounded to 28 significant digits, ties to even —
with `d = 18` for Ethereum native transactions, `d = 6` for Tron native
transactions, `d = 8` for the Bitcoin summary amounts, and the
token-declared decimals (default 18 resp. 6) for token transfers.  The
conversion is exact whenever `A` has at most 28 significant digits; in
particular amount `123456789012345678` with `d = 18` yields exactly
`0.123456789012345678` (but not universally: see the counterexample). -/
theorem c3_unit_conversion :
    (∀ tx t, parseEthTx tx = .ok t →
      ∃ v q, tx.getItem "value" = .ok v ∧ pyDecimal v = .ok q ∧
        t.value = decDiv q (10 ^ 18)) ∧
    (∀ tx t, parseEthTokenTx tx = .ok t →
      ∃ dj d v q, tx.dictGet "tokenDecimal" (Json.num 18) = .ok dj ∧
        pyInt dj = .ok d ∧ tx.getItem "value" = .ok v ∧ pyDecimal v = .ok q ∧
        t.value = decDiv q ((10 : ℚ) ^ d)) ∧
    (∀ fields t, parseEthTokenTx (Json.obj fields) = .ok t →
      fields.lookup "tokenDecimal" = none →
      ∃ v q, (Json.obj fields).getItem "value" = .ok v ∧ pyDecimal v = .ok q ∧
        t.value = decDiv q ((10 : ℚ) ^ (18 : ℤ))) ∧
    (∀ tx t, parseTronTx tx = .ok (some t) →
      ∃ raw cs contract p vd v q,
        tx.dictGet "raw_data" (Json.obj []) = .ok raw ∧
        raw.dictGet "contract" (Json.arr [Json.obj []]) = .ok cs ∧
        cs.item0 = .ok contract ∧
        contract.dictGet "parameter" (Json.obj []) = .ok p ∧
        p.dictGet "value" (Json.obj []) = .ok vd ∧
        vd.dictGet "amount" (Json.num 0) = .ok v ∧ pyDecimal v = .ok q ∧
        t.value = decDiv q (10 ^ 6)) ∧
    (∀ tx t, parseTrc20Tx tx = .ok t →
      ∃ ti dj d v q, tx.dictGet "token_info" (Json.obj []) = .ok ti ∧
        ti.dictGet "decimals" (Json.num 6) = .ok dj ∧ pyInt dj = .ok d ∧
        tx.dictGet "value" (Json.num 0) = .ok v ∧ pyDecimal v = .ok q ∧
        t.value = decDiv q ((10 : ℚ) ^ d)) ∧
    (∀ tx tif t, parseTrc20Tx tx = .ok t →
      tx.dictGet "token_info" (Json.obj []) = .ok (Json.obj tif) →
      tif.lookup "decimals" = none →
      ∃ v q, tx.dictGet "value" (Json.num 0) = .ok v ∧ pyDecimal v = .ok q ∧
        t.value = decDiv q ((10 : ℚ) ^ (6 : ℤ))) ∧
    (∀ env addr info, BlockchairMonitor.getAddressInfo env addr = .ok info →
      ∃ (ad bj : Json) (b : ℚ) (rj : Json) (r : ℚ) (sj : Json) (s : ℚ),
        ad.dictGet "balance" (Json.num 0) = .ok bj ∧ pyDecimal bj = .ok b ∧
        info.balance = decDiv b (10 ^ 8) ∧
        ad.dictGet "received" (Json.num 0) = .ok rj ∧ pyDecimal rj = .ok r ∧
        info.received = decDiv r (10 ^ 8) ∧
        ad.dictGet "spent" (Json.num 0) = .ok sj ∧ pyDecimal sj = .ok s ∧
        info.spent = decDiv s (10 ^ 8)) ∧
    (∀ A : ℤ, |A| < 10 ^ 28 → ∀ d : ℕ,
      decDiv (A : ℚ) (10 ^ d) = (A : ℚ) / 10 ^ d) ∧
    (∃ t, parseEthTx ethPrecisionTx = .ok t ∧
      t.value = (0.123456789012345678 : ℚ)) := by
  refine ⟨parseEthTx_inv, parseEthTokenTx_inv, ?_, parseTronTx_inv,
    parseTrc20Tx_inv, ?_, ?_, ?_, ?_⟩
  · intro fields t h hnone
    exact parseEthTokenTx_default fields t h hnone
  · intro tx tif t h hti hnone
    exact parseTrc20Tx_default tx tif t h hti hnone
  · intro env addr info h
    rcases getAddressInfo_inv env addr info h with
      ⟨data, d1, d2, ad, bj, b, cj, rj, r, sj, s, -, -, -, -, hbj, hb, -,
       hrj, hr, hsj, hs, hinfo⟩
    subst hinfo
    exact ⟨ad, bj, b, rj, r, sj, s, hbj, hb, rfl, hrj, hr, rfl, hsj, hs, rfl⟩
  · intro A hA d
    exact decDiv_int_pow A hA d
  · refine ⟨_, rfl, ?_⟩
    rw [decDiv_int_pow 123456789012345678 (by norm_num) 18]
    norm_num

theorem c3_witness :
    ∃ v q, ethPrecisionTx.getItem "value" = .ok v ∧ pyDecimal v = .ok q ∧
      ethPrecisionT.value = decDiv q (10 ^ 18) :=
  c3_unit_conversion.1 ethPrecisionTx ethPrecisionT (by rfl)

/-- **C8** (counterexample to the claim as stated): the summary's
transaction count is returned raw — a response with
`transaction_count = 7` yields `tx_count = 7`, not the `7 / 10^8` that
"balance, transaction count, received, and spent amounts all scaled …
by dividing by 10^8" would require. -/
theorem c8_counterexample :
    (BlockchairMonitor.getAddressInfo envBtc "1BvBM").map (fun i => i.tx_count)
      = .ok (Json.num 7) ∧ (7 : ℚ) / 10 ^ 8 ≠ (7 : ℚ) :=
  ⟨rfl, by norm_num⟩

/-- **C8** (amended): `monitor_address` with tag `bitcoin` fetches the
address summary and returns the empty transaction list; the summary's
`balance`, `received` and `spent` are scaled by `10^8`, while the
transaction count is returned unscaled. -/
theorem c8_bitcoin_summary (env : Env) (addr : String) :
    (∀ info, BlockchairMonitor.getAddressInfo env addr = .ok info →
      IranMonitor.monitorAddress env addr .bitcoin = .ok []) ∧
    (∀ e, BlockchairMonitor.getAddressInfo env addr = .error e →
      IranMonitor.monitorAddress env addr .bitcoin = .error e) ∧
    (∀ info, BlockchairMonitor.getAddressInfo env addr = .ok info →
      ∃ (ad bj : Json) (b : ℚ) (rj : Json) (r : ℚ) (sj : Json) (s : ℚ)
        (cj : Json),
        ad.dictGet "balance" (Json.num 0) = .ok bj ∧ pyDecimal bj = .ok b ∧
        info.balance = decDiv b (10 ^ 8) ∧
        ad.dictGet "received" (Json.num 0) = .ok rj ∧ pyDecimal rj = .ok r ∧
        info.received = decDiv r (10 ^ 8) ∧
        ad.dictGet "spent" (Json.num 0) = .ok sj ∧ pyDecimal sj = .ok s ∧
        info.spent = decDiv s (10 ^ 8) ∧
        ad.dictGet "transaction_count" (Json.num 0) = .ok cj ∧
        info.tx_count = cj) := by
  refine ⟨?_, ?_, ?_⟩
  · intro info h
    simp [IranMonitor.monitorAddress, h, Bind.bind, Except.bind, pure,
      Except.pure]
  · intro e h
    simp [IranMonitor.monitorAddress, h, Bind.bind, Except.bind]
  · intro info h
    rcases getAddressInfo_inv env addr info h with
      ⟨data, d1, d2, ad, bj, b, cj, rj, r, sj, s, -, -, -, -, hbj, hb, hcj,
       hrj, hr, hsj, hs, hinfo⟩
    subst hinfo
    exact ⟨ad, bj, b, rj, r, sj, s, cj, hbj, hb, rfl, hrj, hr, rfl, hsj, hs,
      rfl, hcj, rfl⟩

theorem c8_witness :
    IranMonitor.monitorAddress envBtc "1BvBM" .bitcoin = .ok [] :=
  (c8_bitcoin_summary envBtc "1BvBM").1 btcInfo (by rfl)

end IranMonitorModel
